import Mathlib

/-!
Verification of the WitcherSeamless state-synchronization core.

This file is a shallow embedding, in Lean 4, of the parts of the repository
that the specification talks about:

- the narrative fact/lock synchronization module (C++ `quest_sync`
  component: `global_story_lock`, `quest_fact_manager`, the pending-fact
  queue, the fail-safe timeout check);
- the packet-receive gating and the handshake protocol (C++ network
  component: `receive_packet_safe`, `receive_handshake_safe`);
- the snapshot interpolator (`player_interpolator` in
  `src/common/network/interpolator.hpp`);
- the WitcherScript reconciliation layer (`w3mp_final.ws`:
  `W3mAtomicAddFact`, `W3mFlushPendingFacts`, `W3mSmoothTimeReconciliation`,
  `W3mReconcileCrowns`).

Modelling conventions:

- C++ machine integers are modelled as `Nat`/`Int`; where the source relies
  on `uint64_t` wraparound (timestamp subtraction) the wraparound is made
  explicit with `% 2 ^ 64`.  C++ integer division (which truncates toward
  zero) is `Int.tdiv`; division of nonnegative quantities is plain `Nat`
  division.
- `float` arithmetic is modelled over `ℚ` (the algorithms are exact
  arithmetic; no claim here depends on rounding).
- `std::unordered_map` is modelled as an association list with
  insert-or-replace update; its unspecified iteration order is fixed to the
  list order.
- `std::hash<std::string>` is implementation defined; it is taken as an
  arbitrary function parameter `hashf : String → Nat` (truncated to 32 bits
  exactly as the source truncates it).
- clocks (`high_resolution_clock` / `steady_clock` / engine time) are passed
  in as explicit `now` arguments.
- engine natives that live outside this repository (`FactsAdd`,
  `FactsRemove`, inventory mutation) are modelled by their visible effect:
  either as a recorded call trace or as arithmetic on the quantity they
  change; network `send` is modelled as a list of emitted (channel, packet)
  events.
-/

namespace QuestSync

/-- `quest_fact` struct of the `quest_sync` C++ component. -/
structure quest_fact where
  fact_name : String
  value : Int
  timestamp : Nat
  player_guid : Nat
  fact_hash : Nat
  deriving Repr, DecidableEq

/-- `FACT_CACHE_SIZE_LIMIT` constant (maximum cached facts). -/
def FACT_CACHE_SIZE_LIMIT : Nat := 1024

/-- `STORY_LOCK_TIMEOUT_MS` constant (fail-safe ceiling, milliseconds). -/
def STORY_LOCK_TIMEOUT_MS : Nat := 15000

/-- `compute_fact_hash`: `static_cast<uint32_t>(std::hash<std::string>{}(name))`.
The underlying `std::hash` is the parameter `hashf`. -/
def compute_fact_hash (hashf : String → Nat) (fact_name : String) : Nat :=
  hashf fact_name % 2 ^ 32

/-- `m_fact_cache[fact_hash] = fact` on the association-list model of
`std::unordered_map<uint32_t, quest_fact>`: replace in place or append. -/
def cacheInsert : List (Nat × quest_fact) → Nat → quest_fact → List (Nat × quest_fact)
  | [], k, v => [(k, v)]
  | (k', v') :: rest, k, v =>
      if k' = k then (k, v) :: rest else (k', v') :: cacheInsert rest k v

/-- `m_fact_cache.find(fact_hash)` on the association-list model. -/
def cacheFind : List (Nat × quest_fact) → Nat → Option quest_fact
  | [], _ => none
  | (k', v) :: rest, k => if k' = k then some v else cacheFind rest k

/-- `m_fact_cache.erase(key)` on the association-list model. -/
def cacheErase : List (Nat × quest_fact) → Nat → List (Nat × quest_fact)
  | [], _ => []
  | (k', v) :: rest, k => if k' = k then rest else (k', v) :: cacheErase rest k

/-- `quest_fact_manager`: the hash-indexed fact cache. -/
structure quest_fact_manager where
  fact_cache : List (Nat × quest_fact)
  deriving Repr, DecidableEq

/-- `quest_fact_manager::prune_oldest_facts`: below 75% of capacity do
nothing; otherwise sort the (hash, timestamp) pairs by timestamp ascending
and erase the oldest entries down to 75% of capacity.  `std::sort` with an
unstable comparator on an unordered container is modelled as a stable merge
sort over the list order. -/
def prune_oldest_facts (cache : List (Nat × quest_fact)) : List (Nat × quest_fact) :=
  if cache.length ≤ 768 then cache
  else
    let fact_ages := cache.map (fun p => (p.1, p.2.timestamp))
    let sorted := fact_ages.mergeSort (fun a b => a.2 ≤ b.2)
    let prune_count := cache.length - 768
    (sorted.take prune_count).foldl (fun c p => cacheErase c p.1) cache

/-- `quest_fact_manager::register_fact`: build the stamped fact, overwrite
the cache entry keyed by the fact hash, prune if the limit is exceeded. -/
def register_fact (hashf : String → Nat) (now : Nat) (m : quest_fact_manager)
    (fact_name : String) (value : Int) (player_guid : Nat) : quest_fact_manager :=
  let fact_hash := compute_fact_hash hashf fact_name
  let fact : quest_fact :=
    { fact_name := fact_name, value := value, timestamp := now
      player_guid := player_guid, fact_hash := fact_hash }
  let cache := cacheInsert m.fact_cache fact_hash fact
  if FACT_CACHE_SIZE_LIMIT < cache.length then ⟨prune_oldest_facts cache⟩ else ⟨cache⟩

/-- `quest_fact_manager::get_fact(name)`: hash the name and look it up. -/
def get_fact (hashf : String → Nat) (m : quest_fact_manager)
    (fact_name : String) : Option quest_fact :=
  cacheFind m.fact_cache (compute_fact_hash hashf fact_name)

/-- `quest_fact_manager::has_fact(name)`. -/
def has_fact (hashf : String → Nat) (m : quest_fact_manager) (fact_name : String) : Bool :=
  (get_fact hashf m fact_name).isSome

/-- `global_story_lock` state: atomic flag plus owner / scene / timestamp. -/
structure global_story_lock where
  lock_active : Bool
  initiator_guid : Nat
  scene_id : Nat
  lock_timestamp : Nat
  deriving Repr, DecidableEq

/-- `global_story_lock::acquire_lock`: early-return when already locked,
otherwise record owner, scene and the current timestamp. -/
def acquire_lock (st : global_story_lock) (initiator_guid scene_id : Nat)
    (now : Nat) : global_story_lock :=
  if st.lock_active then st
  else
    { lock_active := true, initiator_guid := initiator_guid
      scene_id := scene_id, lock_timestamp := now }

/-- `global_story_lock::release_lock`: early-return when not locked,
otherwise clear the flag and zero owner and scene (the timestamp field is
left as it was, exactly as in the source). -/
def release_lock (st : global_story_lock) : global_story_lock :=
  if ¬ st.lock_active then st
  else { st with lock_active := false, initiator_guid := 0, scene_id := 0 }

/-- `is_locked`. -/
def is_locked (st : global_story_lock) : Bool := st.lock_active

end QuestSync

namespace QuestSync

/-- `W3mQuestLockPacket` (quest_lock_packet wire record). -/
structure W3mQuestLockPacket where
  is_locked : Bool
  scene_id : Nat
  player_guid : Nat
  timestamp : Nat
  deriving Repr, DecidableEq

/-- A message handed to `network::send` by this component:
either a fact broadcast on the "fact" channel or a lock-change packet on an
explicitly named channel. -/
inductive sent_event
  | fact_msg (fact_name : String) (value : Int)
  | lock_msg (channel : String) (packet : W3mQuestLockPacket)
  deriving Repr, DecidableEq

/-- The process-wide mutable state of the `quest_sync` component:
`g_story_lock`, `g_W3mGlobalSyncInProgress`, `g_W3mPendingFacts`,
`g_fact_manager`, the loopback flag, and the trace of emitted messages. -/
structure SyncState where
  story_lock : global_story_lock
  sync_in_progress : Bool
  pending_facts : List quest_fact
  fact_manager : quest_fact_manager
  loopback : Bool
  sent : List sent_event
  deriving Repr, DecidableEq

/-- `queue_fact_during_sync`: build the stamped pending fact and append it
to `g_W3mPendingFacts`. -/
def queue_fact_during_sync (hashf : String → Nat) (now : Nat)
    (fact_name : String) (value : Int) (player_guid : Nat) (s : SyncState) : SyncState :=
  let fact : quest_fact :=
    { fact_name := fact_name, value := value, timestamp := now
      player_guid := player_guid, fact_hash := compute_fact_hash hashf fact_name }
  { s with pending_facts := s.pending_facts ++ [fact] }

/-- `flush_pending_facts`: early-return on an empty queue; otherwise
`register_fact` every queued fact in queue order, then clear the queue. -/
def flush_pending_facts (hashf : String → Nat) (now : Nat) (s : SyncState) : SyncState :=
  if s.pending_facts.isEmpty then s
  else
    { s with
      fact_manager :=
        s.pending_facts.foldl
          (fun m f => register_fact hashf now m f.fact_name f.value f.player_guid)
          s.fact_manager
      pending_facts := [] }

/-- `broadcast_quest_fact`: queue if the global sync flag is set, otherwise
register locally and send a fact packet on the "fact" channel. -/
def broadcast_quest_fact (hashf : String → Nat) (my_guid now : Nat)
    (fact_name : String) (value : Int) (s : SyncState) : SyncState :=
  if s.sync_in_progress then
    queue_fact_during_sync hashf now fact_name value my_guid s
  else
    { s with
      fact_manager := register_fact hashf now s.fact_manager fact_name value my_guid
      sent := s.sent ++ [.fact_msg fact_name value] }

/-- `W3mAtomicAddFact` (C++ bridge): queue when the global sync flag is set,
otherwise fall through to `W3mBroadcastFact` / `broadcast_quest_fact`. -/
def W3mAtomicAddFact (hashf : String → Nat) (my_guid now : Nat)
    (fact_name : String) (value : Int) (s : SyncState) : SyncState :=
  if s.sync_in_progress then
    queue_fact_during_sync hashf now fact_name value my_guid s
  else
    broadcast_quest_fact hashf my_guid now fact_name value s

/-- `acquire_global_story_lock`: raise the sync-in-progress flag and acquire
the story lock. -/
def acquire_global_story_lock (initiator_guid scene_id now : Nat)
    (s : SyncState) : SyncState :=
  { s with
    sync_in_progress := true
    story_lock := acquire_lock s.story_lock initiator_guid scene_id now }

/-- `uint64_t` subtraction `a - b` with wraparound, as the C++ source
computes `now - lock_timestamp`. -/
def sub_u64 (a b : Nat) : Nat := (a % 2 ^ 64 + 2 ^ 64 - b % 2 ^ 64) % 2 ^ 64

/-- `release_global_story_lock(forced)`: read owner and scene, release the
lock, clear the sync flag, flush the pending queue, then broadcast the
unlock packet — on channel "story_lock_release_forced" when forced, on
"quest_lock" otherwise.  With loopback enabled the packet is routed to the
local session-state receiver (which only logs) instead of being sent. -/
def release_global_story_lock (hashf : String → Nat) (forced : Bool) (now : Nat)
    (s : SyncState) : SyncState :=
  let initiator_guid := s.story_lock.initiator_guid
  let scene_id := s.story_lock.scene_id
  let s1 := { s with story_lock := release_lock s.story_lock, sync_in_progress := false }
  let s2 := flush_pending_facts hashf now s1
  let packet : W3mQuestLockPacket :=
    { is_locked := false, scene_id := scene_id, player_guid := initiator_guid
      timestamp := now % 2 ^ 32 }
  if s2.loopback then s2
  else
    { s2 with
      sent := s2.sent ++
        [.lock_msg (if forced then "story_lock_release_forced" else "quest_lock") packet] }

/-- `check_story_lock_timeout`: early-return when not locked; otherwise
compare the elapsed milliseconds (nanosecond difference divided by 10^6)
against the 15-second ceiling and force-release when exceeded. -/
def check_story_lock_timeout (hashf : String → Nat) (now : Nat) (s : SyncState) : SyncState :=
  if ¬ s.story_lock.lock_active then s
  else
    let elapsed_ms := sub_u64 now s.story_lock.lock_timestamp / 1000000
    if STORY_LOCK_TIMEOUT_MS < elapsed_ms then
      release_global_story_lock hashf true now s
    else s

end QuestSync

/-- Claim C7: `acquire` on the global lock is idempotent with
first-acquirer-wins semantics: on a state that is already locked, a second
acquire with any owner and scene leaves owner, scene, timestamp and the
locked flag unchanged (it is a no-op); from the idle state, acquire
transitions to locked and records the given owner, scene and the current
timestamp. -/
theorem acquire_lock_idempotent_first_wins
    (st : QuestSync.global_story_lock) (guid scene now : Nat) :
    (st.lock_active = true → QuestSync.acquire_lock st guid scene now = st) ∧
    (st.lock_active = false →
      QuestSync.acquire_lock st guid scene now =
        { lock_active := true, initiator_guid := guid
          scene_id := scene, lock_timestamp := now }) := by
  constructor
  · intro h
    simp [QuestSync.acquire_lock, h]
  · intro h
    simp [QuestSync.acquire_lock, h]

/-- Witness for C7 at a concrete locked state and a concrete idle state. -/
theorem acquire_lock_idempotent_first_wins_witness :
    (QuestSync.acquire_lock ⟨true, 7, 3, 42⟩ 9 4 100 = ⟨true, 7, 3, 42⟩) ∧
    (QuestSync.acquire_lock ⟨false, 0, 0, 0⟩ 9 4 100 = ⟨true, 9, 4, 100⟩) := by
  exact ⟨(acquire_lock_idempotent_first_wins ⟨true, 7, 3, 42⟩ 9 4 100).1 rfl,
         (acquire_lock_idempotent_first_wins ⟨false, 0, 0, 0⟩ 9 4 100).2 rfl⟩

namespace W3mFinal

/-- `W3mPendingFact` struct of `w3mp_final.ws`. -/
structure W3mPendingFact where
  factName : String
  value : Int
  validFor : Int
  timestamp : ℚ
  deriving Repr, DecidableEq

/-- A call into the engine's native facts database (`FactsAdd` /
`FactsRemove` are natives outside this repository; their invocation is what
the script layer controls, so the model records the call trace). -/
inductive native_call
  | factsAdd (factName : String) (value : Int) (validFor : Int)
  | factsRemove (factName : String)
  deriving Repr, DecidableEq

/-- The script-side player fields used by the atomic-facts system
(`w3mGlobalSyncInProgress`, `w3mPendingFacts`) plus the trace of native
facts calls issued so far. -/
structure script_state where
  syncInProgress : Bool
  pendingFacts : List W3mPendingFact
  nativeCalls : List native_call
  deriving Repr, DecidableEq

/-- `W3mNativeFactsAdd`: wrapper around the engine native `FactsAdd`. -/
def W3mNativeFactsAdd (factName : String) (value validFor : Int)
    (s : script_state) : script_state :=
  { s with nativeCalls := s.nativeCalls ++ [.factsAdd factName value validFor] }

/-- `W3mNativeFactsRemove`: wrapper around the engine native `FactsRemove`. -/
def W3mNativeFactsRemove (factName : String) (s : script_state) : script_state :=
  { s with nativeCalls := s.nativeCalls ++ [.factsRemove factName] }

/-- `W3mAtomicAddFact` (script side): while a global sync is in progress,
append a pending fact carrying name, value, validFor and the engine time;
otherwise apply the fact instantly through the native add. -/
def W3mAtomicAddFact (factName : String) (value validFor : Int) (engineTime : ℚ)
    (s : script_state) : script_state :=
  if s.syncInProgress then
    { s with
      pendingFacts := s.pendingFacts ++
        [{ factName := factName, value := value, validFor := validFor
           timestamp := engineTime }] }
  else
    W3mNativeFactsAdd factName value validFor s

/-- `W3mAtomicRemoveFact` (script side): while a global sync is in progress,
queue a removal entry (value 0, validFor 0); otherwise remove instantly. -/
def W3mAtomicRemoveFact (factName : String) (engineTime : ℚ)
    (s : script_state) : script_state :=
  if s.syncInProgress then
    { s with
      pendingFacts := s.pendingFacts ++
        [{ factName := factName, value := 0, validFor := 0, timestamp := engineTime }] }
  else
    W3mNativeFactsRemove factName s

/-- `W3mFlushPendingFacts`: replay every pending entry in queue order — as a
native add when its validFor is strictly positive, as a native removal
otherwise — then clear the queue and drop the sync-in-progress flag. -/
def W3mFlushPendingFacts (s : script_state) : script_state :=
  let replayed :=
    s.pendingFacts.foldl
      (fun t p =>
        if p.validFor > 0 then W3mNativeFactsAdd p.factName p.value p.validFor t
        else W3mNativeFactsRemove p.factName t)
      s
  { replayed with pendingFacts := [], syncInProgress := false }

/-- `W3mReconcileCrowns` of `w3mp_final.ws`, as the crown total it leaves:
the inventory natives `AddAnItem` / `RemoveItemByName` are modelled as
arithmetic on the local quantity. -/
def W3mReconcileCrowns (remoteCrowns localCrowns : Int) : Int :=
  let diff := remoteCrowns - localCrowns
  if diff ≠ 0 then
    if diff > 0 then localCrowns + diff
    else localCrowns - |diff|
  else localCrowns

/-- The script-side time-reconciliation fields of the player
(`w3mTimeSmoothingActive`, `w3mOriginalTimeMultiplier`,
`w3mSmoothingStartTime`, `w3mTargetTimeOffset`) together with the engine
state they drive (the world clock in seconds and the time-rate
multiplier). -/
structure time_state where
  gameSeconds : Int
  timeMultiplier : ℚ
  smoothingActive : Bool
  originalMultiplier : ℚ
  smoothingStartTime : ℚ
  targetOffset : ℚ
  deriving Repr, DecidableEq

/-- `W3mSmoothTimeReconciliation hostGameTime` at engine time `engineNow`:
- drift in the 5..10-second band: start smoothing if not active (record the
  original multiplier, the start time, the target offset), then while the
  3-second window has not elapsed set the multiplier to
  original + offset / 3, and once it has elapsed restore the original
  multiplier and snap the clock exactly to `hostGameTime`;
- drift above 10 seconds: snap immediately;
- otherwise: no change. -/
def W3mSmoothTimeReconciliation (hostGameTime : Int) (engineNow : ℚ)
    (s : time_state) : time_state :=
  let timeDiff : ℚ := (hostGameTime : ℚ) - (s.gameSeconds : ℚ)
  if 5 ≤ |timeDiff| ∧ |timeDiff| ≤ 10 then
    let s1 :=
      if ¬ s.smoothingActive then
        { s with
          smoothingActive := true
          originalMultiplier := s.timeMultiplier
          smoothingStartTime := engineNow
          targetOffset := timeDiff }
      else s
    let smoothingDuration : ℚ := 3
    let adjustmentRate := engineNow - s1.smoothingStartTime
    if adjustmentRate < smoothingDuration then
      { s1 with timeMultiplier := s1.originalMultiplier + s1.targetOffset / smoothingDuration }
    else
      { s1 with
        timeMultiplier := s1.originalMultiplier
        smoothingActive := false
        gameSeconds := hostGameTime }
  else if |timeDiff| > 10 then
    { s with gameSeconds := hostGameTime }
  else
    s

end W3mFinal

/-- Claim C4 counterexample: a remote/local difference of 5 crowns is within
the claimed 10-unit dead band, yet `W3mReconcileCrowns` (w3mp_final.ws)
changes the local total from 100 to 95 instead of leaving it unchanged. -/
theorem reconcile_crowns_deadband_counterexample :
    |(95 : Int) - 100| ≤ 10 ∧ W3mFinal.W3mReconcileCrowns 95 100 = 95 ∧ (95 : Int) ≠ 100 := by
  refine ⟨by norm_num, ?_, by norm_num⟩
  norm_num [W3mFinal.W3mReconcileCrowns]

/-- Claim C4 (amended): `W3mReconcileCrowns` applies the signed difference
whenever the totals differ at all — there is no 10-unit tolerance band — so
the local total always becomes the remote total (in particular local=100,
remote=80 yields 80, and local=100, remote=95 yields 95, not 100). -/
theorem reconcile_crowns_always_snaps (remoteCrowns localCrowns : Int) :
    W3mFinal.W3mReconcileCrowns remoteCrowns localCrowns = remoteCrowns := by
  simp only [W3mFinal.W3mReconcileCrowns]
  split_ifs with h1 h2
  · omega
  · rw [abs_of_nonpos (by omega)]
    omega
  · omega

/-- Claim C5 counterexample: a clock diff of 45 seconds is at most 60 and
outside the 5..10 smoothing band, yet `W3mSmoothTimeReconciliation`
(w3mp_final.ws) snaps the local clock to the host value instead of ignoring
the diff. -/
theorem smooth_time_ignore_band_counterexample :
    |(45 : ℚ)| ≤ 60 ∧ ¬ (5 ≤ |(45 : ℚ)| ∧ |(45 : ℚ)| ≤ 10) ∧
    (W3mFinal.W3mSmoothTimeReconciliation 45 0 ⟨0, 1, false, 1, 0, 0⟩).gameSeconds = 45 ∧
    (45 : Int) ≠ 0 := by
  refine ⟨by norm_num, by norm_num, ?_, by norm_num⟩
  norm_num [W3mFinal.W3mSmoothTimeReconciliation]

/-- Claim C5 (amended): only a clock diff of absolute value below 5 seconds
is ignored; any diff above 10 seconds — 15 s and 45 s alike — produces an
immediate snap to the host clock with no change to the smoothing state. -/
theorem smooth_time_thresholds (hostGameTime : Int) (engineNow : ℚ)
    (s : W3mFinal.time_state) :
    (|((hostGameTime : ℚ) - (s.gameSeconds : ℚ))| < 5 →
      W3mFinal.W3mSmoothTimeReconciliation hostGameTime engineNow s = s) ∧
    (10 < |((hostGameTime : ℚ) - (s.gameSeconds : ℚ))| →
      W3mFinal.W3mSmoothTimeReconciliation hostGameTime engineNow s =
        { s with gameSeconds := hostGameTime }) := by
  constructor
  · intro h
    simp only [W3mFinal.W3mSmoothTimeReconciliation]
    rw [if_neg (by rintro ⟨h5, -⟩; linarith), if_neg (by linarith)]
  · intro h
    simp only [W3mFinal.W3mSmoothTimeReconciliation]
    rw [if_neg (by rintro ⟨-, h10⟩; linarith), if_pos (by linarith)]

/-- Witness for C5 (amended) at diff 2 (ignored) and diff 15 (snapped). -/
theorem smooth_time_thresholds_witness :
    (W3mFinal.W3mSmoothTimeReconciliation 2 0 ⟨0, 1, false, 1, 0, 0⟩ =
      ⟨0, 1, false, 1, 0, 0⟩) ∧
    (W3mFinal.W3mSmoothTimeReconciliation 15 0 ⟨0, 1, false, 1, 0, 0⟩ =
      ⟨15, 1, false, 1, 0, 0⟩) := by
  constructor
  · exact (smooth_time_thresholds 2 0 ⟨0, 1, false, 1, 0, 0⟩).1 (by norm_num)
  · exact (smooth_time_thresholds 15 0 ⟨0, 1, false, 1, 0, 0⟩).2 (by norm_num)

/-- Claim C6 counterexample: with original multiplier 1 and a 6-second
drift, the multiplier does not ramp linearly across the 3-second window from
the original rate: already at elapsed time 0 it is 3 (= original +
offset / 3), and at elapsed time 1 it is still 3 — a constant jump, not a
ramp starting at the original rate 1. -/
theorem smooth_time_ramp_counterexample :
    (W3mFinal.W3mSmoothTimeReconciliation 6 0 ⟨0, 1, false, 1, 0, 0⟩).timeMultiplier = 3 ∧
    (W3mFinal.W3mSmoothTimeReconciliation 6 1
      (W3mFinal.W3mSmoothTimeReconciliation 6 0 ⟨0, 1, false, 1, 0, 0⟩)).timeMultiplier = 3 ∧
    (3 : ℚ) ≠ 1 := by
  norm_num [W3mFinal.W3mSmoothTimeReconciliation]

/-- Claim C6 (amended): for an in-band drift (5 ≤ |diff| ≤ 10), starting
smoothing records the original time-rate multiplier and sets the multiplier
to the constant value original + diff / 3 for the 3-second window; once the
window has elapsed (at a later call with the diff still in band), the
original multiplier is restored and the local clock is set exactly to the
authoritative remote clock value. -/
theorem smooth_time_window_behaviour (hostGameTime : Int) (engineNow : ℚ)
    (s : W3mFinal.time_state)
    (hlo : 5 ≤ |((hostGameTime : ℚ) - (s.gameSeconds : ℚ))|)
    (hhi : |((hostGameTime : ℚ) - (s.gameSeconds : ℚ))| ≤ 10) :
    (s.smoothingActive = false →
      W3mFinal.W3mSmoothTimeReconciliation hostGameTime engineNow s =
        { s with
          smoothingActive := true
          originalMultiplier := s.timeMultiplier
          smoothingStartTime := engineNow
          targetOffset := (hostGameTime : ℚ) - (s.gameSeconds : ℚ)
          timeMultiplier :=
            s.timeMultiplier + ((hostGameTime : ℚ) - (s.gameSeconds : ℚ)) / 3 }) ∧
    (s.smoothingActive = true → 3 ≤ engineNow - s.smoothingStartTime →
      W3mFinal.W3mSmoothTimeReconciliation hostGameTime engineNow s =
        { s with
          timeMultiplier := s.originalMultiplier
          smoothingActive := false
          gameSeconds := hostGameTime }) := by
  constructor
  · intro hact
    simp only [W3mFinal.W3mSmoothTimeReconciliation]
    rw [if_pos ⟨hlo, hhi⟩]
    simp only [hact, Bool.false_eq_true, not_false_eq_true, if_true, sub_self]
    rw [if_pos (by norm_num)]
  · intro hact helapsed
    simp only [W3mFinal.W3mSmoothTimeReconciliation]
    rw [if_pos ⟨hlo, hhi⟩]
    simp only [hact, not_true_eq_false, if_false]
    rw [if_neg (by linarith)]

/-- Witness for C6 (amended): start of smoothing at drift 6 (original
multiplier 1 recorded, multiplier becomes 3) and completion once 3 seconds
have elapsed (multiplier restored, clock snapped to 6). -/
theorem smooth_time_window_behaviour_witness :
    (W3mFinal.W3mSmoothTimeReconciliation 6 0 ⟨0, 1, false, 1, 0, 0⟩ =
      ⟨0, 3, true, 1, 0, 6⟩) ∧
    (W3mFinal.W3mSmoothTimeReconciliation 6 4 ⟨0, 3, true, 1, 0, 6⟩ =
      ⟨6, 1, false, 1, 0, 6⟩) := by
  constructor
  · have h := (smooth_time_window_behaviour 6 0 ⟨0, 1, false, 1, 0, 0⟩
      (by norm_num) (by norm_num)).1 rfl
    rw [h]
    norm_num
  · have h := (smooth_time_window_behaviour 6 4 ⟨0, 3, true, 1, 0, 6⟩
      (by norm_num) (by norm_num)).2 rfl (by norm_num)
    rw [h]

namespace W3mFinal

/-- The native call that `W3mFlushPendingFacts` issues for one queued entry:
an add when validFor is strictly positive, a removal otherwise. -/
def replay_call (p : W3mPendingFact) : native_call :=
  if p.validFor > 0 then .factsAdd p.factName p.value p.validFor
  else .factsRemove p.factName

/-- The replay loop of `W3mFlushPendingFacts` appends exactly one native
call per queued entry, in queue order, and touches nothing else. -/
theorem flush_replay_loop (l : List W3mPendingFact) (t : script_state) :
    l.foldl
      (fun t p =>
        if p.validFor > 0 then W3mNativeFactsAdd p.factName p.value p.validFor t
        else W3mNativeFactsRemove p.factName t)
      t =
    { t with nativeCalls := t.nativeCalls ++ l.map replay_call } := by
  induction l generalizing t with
  | nil => simp
  | cons p rest ih =>
      simp only [List.foldl_cons, List.map_cons]
      by_cases hp : p.validFor > 0
      · rw [if_pos hp, ih]
        simp [W3mNativeFactsAdd, replay_call, hp]
      · rw [if_neg hp, ih]
        simp [W3mNativeFactsRemove, replay_call, hp]

end W3mFinal

/-- Claim C10: a fact queued through the script-side `W3mAtomicAddFact`
while a global sync is in progress carries its validFor value into the
pending queue; `W3mFlushPendingFacts` replays a queued entry as a native
fact removal exactly when its validFor is not strictly positive; hence a
fact added atomically with validFor = 0 is applied immediately as a native
add when no sync is in progress, but is removed (not added) when it was
queued during a sync and then flushed. -/
theorem atomic_fact_validFor_flush_semantics (factName : String) (value : Int)
    (engineTime : ℚ) (s q : W3mFinal.script_state)
    (hsync : s.syncInProgress = true) (hsempty : s.pendingFacts = [])
    (hnosync : q.syncInProgress = false) :
    (∀ validFor : Int,
      (W3mFinal.W3mAtomicAddFact factName value validFor engineTime s).pendingFacts =
        s.pendingFacts ++ [⟨factName, value, validFor, engineTime⟩]) ∧
    (∀ t : W3mFinal.script_state,
      (W3mFinal.W3mFlushPendingFacts t).nativeCalls =
        t.nativeCalls ++ t.pendingFacts.map W3mFinal.replay_call ∧
      (∀ p ∈ t.pendingFacts, ¬ p.validFor > 0 →
        W3mFinal.replay_call p = .factsRemove p.factName) ∧
      (W3mFinal.W3mFlushPendingFacts t).pendingFacts = []) ∧
    ((W3mFinal.W3mAtomicAddFact factName value 0 engineTime q).nativeCalls =
      q.nativeCalls ++ [.factsAdd factName value 0]) ∧
    ((W3mFinal.W3mFlushPendingFacts
        (W3mFinal.W3mAtomicAddFact factName value 0 engineTime s)).nativeCalls =
      s.nativeCalls ++ [.factsRemove factName]) := by
  refine ⟨?_, ?_, ?_, ?_⟩
  · intro validFor
    simp [W3mFinal.W3mAtomicAddFact, hsync]
  · intro t
    refine ⟨?_, ?_, ?_⟩
    · simp [W3mFinal.W3mFlushPendingFacts, W3mFinal.flush_replay_loop]
    · intro p _ hp
      simp [W3mFinal.replay_call, hp]
    · simp [W3mFinal.W3mFlushPendingFacts, W3mFinal.flush_replay_loop]
  · simp [W3mFinal.W3mAtomicAddFact, hnosync, W3mFinal.W3mNativeFactsAdd]
  · simp [W3mFinal.W3mAtomicAddFact, hsync, W3mFinal.W3mFlushPendingFacts,
      W3mFinal.flush_replay_loop, hsempty, W3mFinal.replay_call,
      W3mFinal.W3mNativeFactsRemove]

/-- Witness for C10 at a concrete fact, a syncing state and an idle state. -/
theorem atomic_fact_validFor_flush_semantics_witness :
    ((W3mFinal.W3mAtomicAddFact "f" 1 0 2 ⟨true, [], []⟩).pendingFacts =
      [⟨"f", 1, 0, 2⟩]) ∧
    ((W3mFinal.W3mAtomicAddFact "f" 1 0 2 ⟨false, [], []⟩).nativeCalls =
      [.factsAdd "f" 1 0]) ∧
    ((W3mFinal.W3mFlushPendingFacts
        (W3mFinal.W3mAtomicAddFact "f" 1 0 2 ⟨true, [], []⟩)).nativeCalls =
      [.factsRemove "f"]) := by
  have h := atomic_fact_validFor_flush_semantics "f" 1 2 ⟨true, [], []⟩ ⟨false, [], []⟩
    rfl rfl rfl
  exact ⟨by simpa using h.1 0, by simpa using h.2.2.1, by simpa using h.2.2.2⟩

namespace NetGate

/-- `W3mHandshakePacket` (handshake_packet wire record). -/
structure handshake_packet where
  session_id : Nat
  player_guid : Nat
  protocol_version : Nat
  player_name : String
  timestamp : Nat
  deriving Repr, DecidableEq

/-- The session globals of the network component
(`g_handshake_complete`, `g_session_id`, `g_handshake_player_name`)
together with the rest of the mutable state the dispatched handlers may
touch (caches, player tables, ...), abstracted as `game : α`. -/
structure net_state (α : Type) where
  handshake_complete : Bool
  session_id : Nat
  handshake_player_name : String
  game : α
  deriving Repr, DecidableEq

/-- `is_handshake_complete`. -/
def is_handshake_complete {α : Type} (s : net_state α) : Bool :=
  s.handshake_complete

/-- `set_handshake_complete`: store the session id and peer name, then raise
the flag. -/
def set_handshake_complete {α : Type} (session_id : Nat) (player_name : String)
    (s : net_state α) : net_state α :=
  { s with
    session_id := session_id
    handshake_player_name := player_name
    handshake_complete := true }

/-- `receive_packet_safe`: drop the message when it is not from the master
server; when `require_handshake` is set (the default for every non-handshake
receiver) and the handshake is not complete, drop it before dispatch; drop
it when the leading protocol tag does not match; otherwise run the
kind-specific handler.  A parse failure inside the handler is caught and
discarded in the source; the model's handlers are total. -/
def receive_packet_safe {α : Type} (require_handshake addr_ok protocol_ok : Bool)
    (handler : net_state α → net_state α) (s : net_state α) : net_state α :=
  if ¬ addr_ok then s
  else if require_handshake ∧ ¬ is_handshake_complete s then s
  else if ¬ protocol_ok then s
  else handler s

/-- `receive_handshake_safe`: runs through `receive_packet_safe` with
`require_handshake = false`; a non-zero session id completes the session,
a zero session id is only logged. -/
def receive_handshake_safe {α : Type} (addr_ok protocol_ok : Bool)
    (packet : handshake_packet) (s : net_state α) : net_state α :=
  receive_packet_safe false addr_ok protocol_ok
    (fun t =>
      if packet.session_id ≠ 0 then
        set_handshake_complete packet.session_id packet.player_name t
      else t)
    s

end NetGate

/-- Claim C2: while the session is not established, every inbound message
whose kind is not a handshake record (all such receivers call
`receive_packet_safe` with `require_handshake = true`) is dropped before its
handler is dispatched, leaving the state unchanged whatever the handler
would do; a handshake record with a non-zero session identifier sets
`established` to true, while a zero session identifier leaves the state
unchanged (established stays false) without being fatal. -/
theorem handshake_gate_blocks_until_established {α : Type}
    (s : NetGate.net_state α) (addr_ok protocol_ok : Bool)
    (packet : NetGate.handshake_packet) :
    (∀ handler : NetGate.net_state α → NetGate.net_state α,
      s.handshake_complete = false →
      NetGate.receive_packet_safe true addr_ok protocol_ok handler s = s) ∧
    (packet.session_id ≠ 0 → addr_ok = true → protocol_ok = true →
      (NetGate.receive_handshake_safe addr_ok protocol_ok packet s).handshake_complete
        = true) ∧
    (packet.session_id = 0 →
      NetGate.receive_handshake_safe addr_ok protocol_ok packet s = s) := by
  refine ⟨?_, ?_, ?_⟩
  · intro handler hnot
    simp only [NetGate.receive_packet_safe, NetGate.is_handshake_complete, hnot]
    by_cases ha : addr_ok
    · simp [ha]
    · simp [ha]
  · intro hsid ha hp
    simp [NetGate.receive_handshake_safe, NetGate.receive_packet_safe,
      NetGate.set_handshake_complete, ha, hp, hsid]
  · intro hsid
    simp only [NetGate.receive_handshake_safe, NetGate.receive_packet_safe,
      NetGate.is_handshake_complete, hsid]
    by_cases ha : addr_ok
    · by_cases hp : protocol_ok
      · simp [ha, hp]
      · simp [ha, hp]
    · simp [ha]

/-- Witness for C2 with `α := Nat` as the abstract game state: a handler
that would overwrite the game state is blocked while the handshake is
incomplete; a handshake record with session id 5 establishes the session;
one with session id 0 leaves the state untouched. -/
theorem handshake_gate_blocks_until_established_witness :
    (NetGate.receive_packet_safe true true true (fun t => { t with game := 99 })
      (⟨false, 0, "", 1⟩ : NetGate.net_state Nat) = ⟨false, 0, "", 1⟩) ∧
    ((NetGate.receive_handshake_safe true true ⟨5, 2, 1, "peer", 0⟩
      (⟨false, 0, "", 1⟩ : NetGate.net_state Nat)).handshake_complete = true) ∧
    (NetGate.receive_handshake_safe true true ⟨0, 2, 1, "peer", 0⟩
      (⟨false, 0, "", 1⟩ : NetGate.net_state Nat) = ⟨false, 0, "", 1⟩) := by
  have h := handshake_gate_blocks_until_established
    (⟨false, 0, "", 1⟩ : NetGate.net_state Nat) true true
  exact ⟨(h ⟨5, 2, 1, "peer", 0⟩).1 (fun t => { t with game := 99 }) rfl,
         (h ⟨5, 2, 1, "peer", 0⟩).2.1 (by decide) rfl rfl,
         (h ⟨0, 2, 1, "peer", 0⟩).2.2 rfl⟩

namespace Interp

/-- `game::vec4_t` over exact rationals. -/
structure Vec4 where
  x : ℚ
  y : ℚ
  z : ℚ
  w : ℚ
  deriving Repr, DecidableEq

/-- `game::vec3_t` (EulerAngles) over exact rationals. -/
structure Vec3 where
  x : ℚ
  y : ℚ
  z : ℚ
  deriving Repr, DecidableEq

/-- `player_state_packet` wire record. -/
structure player_state_packet where
  player_guid : Nat
  position : Vec4
  angles : Vec3
  velocity : Vec4
  move_type : Int
  speed : ℚ
  deriving Repr, DecidableEq

/-- `snapshot`: a player state packet with its arrival time (a
`steady_clock::time_point`, modelled in integer nanoseconds) and a validity
flag. -/
structure snapshot where
  state : player_state_packet
  timestamp : Int
  valid : Bool
  deriving Repr, DecidableEq

/-- `SNAPSHOT_BUFFER_SIZE` constant. -/
def SNAPSHOT_BUFFER_SIZE : Nat := 3

/-- `INTERPOLATION_DELAY_MS` constant. -/
def INTERPOLATION_DELAY_MS : Int := 100

/-- `RECOVERY_BLEND_DURATION_MS` constant. -/
def RECOVERY_BLEND_DURATION_MS : Int := 500

/-- `duration_cast<milliseconds>` of a nanosecond difference: C++ integer
division truncating toward zero. -/
def msOf (d : Int) : Int := d.tdiv 1000000

/-- `std::clamp(v, lo, hi)`. -/
def clampQ (v lo hi : ℚ) : ℚ :=
  if v < lo then lo else if hi < v then hi else v

/-- `player_interpolator::lerp`. -/
def lerp (a b t : ℚ) : ℚ := a + (b - a) * t

/-- First normalization loop of `lerp_angle`:
`while (diff > 180) diff -= 360`. -/
def wrapDown (d : ℚ) : ℚ :=
  if h : 180 < d then wrapDown (d - 360) else d
termination_by (⌈d⌉ - 180).toNat
decreasing_by
  have h1 : (180 : ℤ) < ⌈d⌉ := by
    rw [Int.lt_ceil]; exact_mod_cast h
  have h2 : ⌈d - 360⌉ = ⌈d⌉ - 360 := by
    have h3 := Int.ceil_sub_int d 360
    push_cast at h3
    exact h3
  omega

/-- Second normalization loop of `lerp_angle`:
`while (diff < -180) diff += 360`. -/
def wrapUp (d : ℚ) : ℚ :=
  if h : d < -180 then wrapUp (d + 360) else d
termination_by (-180 - ⌊d⌋).toNat
decreasing_by
  have h1 : ⌊d⌋ < (-180 : ℤ) := by
    rw [Int.floor_lt]; exact_mod_cast h
  have h2 : ⌊d + 360⌋ = ⌊d⌋ + 360 := by
    have h3 := Int.floor_add_int d 360
    push_cast at h3
    exact h3
  omega

/-- `player_interpolator::lerp_angle`: normalize the delta to [-180, 180]
with the two wrap loops, then interpolate along the normalized delta. -/
def lerp_angle (a b t : ℚ) : ℚ :=
  a + wrapUp (wrapDown (b - a)) * t

/-- The interpolator's full mutable state (ring buffer, cursors, and the
extrapolation / recovery-blend sub-state). -/
structure player_interpolator where
  snapshots : List snapshot
  write_index : Nat
  snapshot_count : Nat
  in_extrapolation : Bool
  blend_active : Bool
  blend_start_time : Int
  blend_start_state : player_state_packet
  blend_target_state : player_state_packet
  extrapolation_anchor : Option player_state_packet
  last_returned_state : Option player_state_packet
  deriving Repr, DecidableEq

/-- The snapshot-selection loop of `get_interpolated_state`: scan the first
`snapshot_count` slots, keeping the latest valid snapshot at or before the
render time as `older` and the earliest valid snapshot after it as
`newer`. -/
def find_surrounding (render_time : Int) (snaps : List snapshot) :
    Option snapshot × Option snapshot :=
  snaps.foldl
    (fun acc snap =>
      if ¬ snap.valid then acc
      else if snap.timestamp ≤ render_time then
        match acc.1 with
        | none => (some snap, acc.2)
        | some o => if o.timestamp < snap.timestamp then (some snap, acc.2) else acc
      else
        match acc.2 with
        | none => (acc.1, some snap)
        | some n => if snap.timestamp < n.timestamp then (acc.1, some snap) else acc)
    (none, none)

/-- `player_interpolator::get_most_recent_snapshot`: latest valid slot's
state across the whole buffer. -/
def get_most_recent_snapshot (s : player_interpolator) : Option player_state_packet :=
  (s.snapshots.foldl
    (fun acc snap =>
      if ¬ snap.valid then acc
      else
        match acc with
        | none => some snap
        | some m => if m.timestamp < snap.timestamp then some snap else acc)
    none).map snapshot.state

/-- `player_interpolator::get_latest_snapshot_ptr`: latest valid slot. -/
def get_latest_snapshot_ptr (s : player_interpolator) : Option snapshot :=
  s.snapshots.foldl
    (fun acc snap =>
      if ¬ snap.valid then acc
      else
        match acc with
        | none => some snap
        | some m => if m.timestamp < snap.timestamp then some snap else acc)
    none

/-- `player_interpolator::get_extrapolated_position` (dead reckoning):
return the most recent state while it is at most 100 ms old, otherwise
project its position forward along its velocity. -/
def get_extrapolated_position (s : player_interpolator) (now : Int) :
    Option player_state_packet :=
  match get_most_recent_snapshot s with
  | none => none
  | some most_recent =>
    match get_latest_snapshot_ptr s with
    | none => some most_recent
    | some latest =>
      let age_ms := msOf (now - latest.timestamp)
      if age_ms ≤ 100 then some most_recent
      else
        let delta_time_seconds : ℚ := ((age_ms - INTERPOLATION_DELAY_MS : Int) : ℚ) / 1000
        some
          { most_recent with
            position :=
              { most_recent.position with
                x := most_recent.position.x + most_recent.velocity.x * delta_time_seconds
                y := most_recent.position.y + most_recent.velocity.y * delta_time_seconds
                z := most_recent.position.z + most_recent.velocity.z * delta_time_seconds } }

/-- `player_interpolator::handle_extrapolation`: on a successful
extrapolation, mark the extrapolation sub-state and remember the anchor. -/
def handle_extrapolation (s : player_interpolator) (now : Int) :
    Option player_state_packet × player_interpolator :=
  match get_extrapolated_position s now with
  | none => (none, s)
  | some extrapolated =>
    (some extrapolated,
      { s with
        in_extrapolation := true
        blend_active := false
        extrapolation_anchor := some extrapolated
        last_returned_state := some extrapolated })

/-- `player_interpolator::blend_packets`: component-wise lerp of two packets
(angles through the wrapping lerp). -/
def blend_packets (a b : player_state_packet) (t : ℚ) : player_state_packet :=
  { a with
    position :=
      { x := lerp a.position.x b.position.x t
        y := lerp a.position.y b.position.y t
        z := lerp a.position.z b.position.z t
        w := lerp a.position.w b.position.w t }
    angles :=
      { x := lerp_angle a.angles.x b.angles.x t
        y := lerp_angle a.angles.y b.angles.y t
        z := lerp_angle a.angles.z b.angles.z t }
    velocity :=
      { x := lerp a.velocity.x b.velocity.x t
        y := lerp a.velocity.y b.velocity.y t
        z := lerp a.velocity.z b.velocity.z t
        w := lerp a.velocity.w b.velocity.w t }
    speed := lerp a.speed b.speed t }

/-- `player_interpolator::apply_blend_if_needed`: when resuming from
extrapolation with an anchor, begin a recovery blend from the anchor to the
target; while a blend is active, return the blend of the anchor state toward
the target at the elapsed fraction of the 500 ms window (clamped), ending
the blend once the window has elapsed. -/
def apply_blend_if_needed (s : player_interpolator)
    (target : player_state_packet) (now : Int) :
    player_state_packet × player_interpolator :=
  let s1 :=
    if s.in_extrapolation then
      match s.extrapolation_anchor with
      | some anchor =>
        { s with
          blend_active := true
          blend_start_time := now
          blend_start_state := anchor
          blend_target_state := target
          in_extrapolation := false }
      | none => s
    else s
  if ¬ s1.blend_active then (target, s1)
  else
    let elapsed_ms := msOf (now - s1.blend_start_time)
    let t := clampQ ((elapsed_ms : ℚ) / ((RECOVERY_BLEND_DURATION_MS : Int) : ℚ)) 0 1
    let s2 := { s1 with blend_target_state := target }
    let blended := blend_packets s2.blend_start_state target t
    let s3 :=
      if RECOVERY_BLEND_DURATION_MS ≤ elapsed_ms then
        { s2 with blend_active := false, extrapolation_anchor := none }
      else s2
    (blended, s3)

/-- `player_interpolator::get_interpolated_state`: with fewer than two
snapshots fall back to extrapolation; otherwise bracket the render time
(now − 100 ms), and if both a surrounding older and newer snapshot exist,
interpolate component-wise at the clamped fraction and run the recovery
blend; without a bracket fall back to extrapolation. -/
def get_interpolated_state (s : player_interpolator) (now : Int) :
    Option player_state_packet × player_interpolator :=
  if s.snapshot_count < 2 then handle_extrapolation s now
  else
    let render_time := now - 100 * 1000000
    match find_surrounding render_time (s.snapshots.take s.snapshot_count) with
    | (some older, some newer) =>
      let time_diff := msOf (newer.timestamp - older.timestamp)
      if time_diff = 0 then (some older.state, s)
      else
        let elapsed := msOf (render_time - older.timestamp)
        let t : ℚ := (elapsed : ℚ) / (time_diff : ℚ)
        let clamped_t := clampQ t 0 1
        let interpolated :=
          { older.state with
            position :=
              { x := lerp older.state.position.x newer.state.position.x clamped_t
                y := lerp older.state.position.y newer.state.position.y clamped_t
                z := lerp older.state.position.z newer.state.position.z clamped_t
                w := lerp older.state.position.w newer.state.position.w clamped_t }
            angles :=
              { x := lerp_angle older.state.angles.x newer.state.angles.x clamped_t
                y := lerp_angle older.state.angles.y newer.state.angles.y clamped_t
                z := lerp_angle older.state.angles.z newer.state.angles.z clamped_t }
            velocity :=
              { x := lerp older.state.velocity.x newer.state.velocity.x clamped_t
                y := lerp older.state.velocity.y newer.state.velocity.y clamped_t
                z := lerp older.state.velocity.z newer.state.velocity.z clamped_t
                w := lerp older.state.velocity.w newer.state.velocity.w clamped_t }
            speed := lerp older.state.speed newer.state.speed clamped_t }
        let br := apply_blend_if_needed s interpolated now
        (some br.1, { br.2 with last_returned_state := some br.1 })
    | _ => handle_extrapolation s now

end Interp

/-- Claim C9: angular interpolation uses shortest-path wrap: for a = 359°
and b = 1° the delta −358 is normalized to +2, so `lerp_angle 359 1` at
fraction 1/2 yields 360 (that is, 0 modulo 360), not 180. -/
theorem lerp_angle_shortest_path_wrap :
    Interp.wrapUp (Interp.wrapDown ((1 : ℚ) - 359)) = 2 ∧
    Interp.lerp_angle 359 1 (1 / 2) = 360 := by
  have hd : Interp.wrapDown ((1 : ℚ) - 359) = (1 : ℚ) - 359 := by
    rw [Interp.wrapDown, dif_neg (by norm_num)]
  have hu : Interp.wrapUp ((1 : ℚ) - 359) = 2 := by
    rw [Interp.wrapUp, dif_pos (by norm_num)]
    rw [show (1 : ℚ) - 359 + 360 = 2 by norm_num]
    rw [Interp.wrapUp, dif_neg (by norm_num)]
  constructor
  · rw [hd, hu]
  · simp only [Interp.lerp_angle, hd, hu]
    norm_num

namespace Interp

/-- `clampQ` lands in the clamping interval. -/
theorem clampQ_mem (v lo hi : ℚ) (h : lo ≤ hi) :
    lo ≤ clampQ v lo hi ∧ clampQ v lo hi ≤ hi := by
  unfold clampQ
  split_ifs with h1 h2
  · exact ⟨le_refl lo, h⟩
  · exact ⟨h, le_refl hi⟩
  · exact ⟨le_of_not_lt h1, le_of_not_lt h2⟩

/-- `lerp` at a fraction in [0, 1] stays between its endpoints. -/
theorem lerp_bounds (a b t : ℚ) (h0 : 0 ≤ t) (h1 : t ≤ 1) :
    min a b ≤ lerp a b t ∧ lerp a b t ≤ max a b := by
  rcases le_total a b with hab | hab
  · rw [min_eq_left hab, max_eq_right hab]
    unfold lerp
    constructor <;> nlinarith
  · rw [min_eq_right hab, max_eq_left hab]
    unfold lerp
    constructor <;> nlinarith

end Interp

/-- Claim C8 (amended): when the interpolator is not resuming from
extrapolation (no recovery blend pending or active), the state returned by
`get_interpolated_state` for a render time bracketed by an older snapshot
and a newer snapshot has every position component between the corresponding
components of the two bracketing snapshots (inclusive), because the
interpolation fraction is clamped to [0, 1]. -/
theorem interpolation_bounds_no_blend (s : Interp.player_interpolator) (now : Int)
    (older newer : Interp.snapshot)
    (hcount : ¬ s.snapshot_count < 2)
    (hextrap : s.in_extrapolation = false)
    (hblend : s.blend_active = false)
    (hfind : Interp.find_surrounding (now - 100 * 1000000)
        (s.snapshots.take s.snapshot_count) = (some older, some newer)) :
    ∃ r, (Interp.get_interpolated_state s now).1 = some r ∧
      min older.state.position.x newer.state.position.x ≤ r.position.x ∧
      r.position.x ≤ max older.state.position.x newer.state.position.x ∧
      min older.state.position.y newer.state.position.y ≤ r.position.y ∧
      r.position.y ≤ max older.state.position.y newer.state.position.y ∧
      min older.state.position.z newer.state.position.z ≤ r.position.z ∧
      r.position.z ≤ max older.state.position.z newer.state.position.z ∧
      min older.state.position.w newer.state.position.w ≤ r.position.w ∧
      r.position.w ≤ max older.state.position.w newer.state.position.w := by
  simp only [Interp.get_interpolated_state, if_neg hcount, hfind]
  by_cases htd : Interp.msOf (newer.timestamp - older.timestamp) = 0
  · rw [if_pos htd]
    exact ⟨older.state, rfl,
      min_le_left _ _, le_max_left _ _, min_le_left _ _, le_max_left _ _,
      min_le_left _ _, le_max_left _ _, min_le_left _ _, le_max_left _ _⟩
  · rw [if_neg htd]
    simp only [Interp.apply_blend_if_needed, hextrap, Bool.false_eq_true, if_false,
      hblend, not_false_eq_true, if_true]
    set ct := Interp.clampQ
      ((Interp.msOf (now - 100 * 1000000 - older.timestamp) : ℚ) /
        ((Interp.msOf (newer.timestamp - older.timestamp) : Int) : ℚ)) 0 1 with hct
    have hmem := Interp.clampQ_mem
      ((Interp.msOf (now - 100 * 1000000 - older.timestamp) : ℚ) /
        ((Interp.msOf (newer.timestamp - older.timestamp) : Int) : ℚ)) 0 1 (by norm_num)
    rw [← hct] at hmem
    refine ⟨_, rfl, ?_, ?_, ?_, ?_, ?_, ?_, ?_, ?_⟩
    · exact (Interp.lerp_bounds _ _ ct hmem.1 hmem.2).1
    · exact (Interp.lerp_bounds _ _ ct hmem.1 hmem.2).2
    · exact (Interp.lerp_bounds _ _ ct hmem.1 hmem.2).1
    · exact (Interp.lerp_bounds _ _ ct hmem.1 hmem.2).2
    · exact (Interp.lerp_bounds _ _ ct hmem.1 hmem.2).1
    · exact (Interp.lerp_bounds _ _ ct hmem.1 hmem.2).2
    · exact (Interp.lerp_bounds _ _ ct hmem.1 hmem.2).1
    · exact (Interp.lerp_bounds _ _ ct hmem.1 hmem.2).2

namespace Interp

/-- Older bracketing snapshot (position x = 0, arrival 850 ms). -/
def cx_snapA : snapshot :=
  ⟨⟨1, ⟨0, 0, 0, 0⟩, ⟨0, 0, 0⟩, ⟨0, 0, 0, 0⟩, 0, 0⟩, 850000000, true⟩

/-- Newer bracketing snapshot (position x = 1, arrival 950 ms). -/
def cx_snapB : snapshot :=
  ⟨⟨1, ⟨1, 1, 1, 1⟩, ⟨0, 0, 0⟩, ⟨0, 0, 0, 0⟩, 0, 0⟩, 950000000, true⟩

/-- Unused third ring-buffer slot. -/
def cx_snapC : snapshot :=
  ⟨⟨1, ⟨0, 0, 0, 0⟩, ⟨0, 0, 0⟩, ⟨0, 0, 0, 0⟩, 0, 0⟩, 0, false⟩

/-- An extrapolation anchor far from both snapshots (position x = 100). -/
def cx_anchor : player_state_packet :=
  ⟨1, ⟨100, 100, 100, 100⟩, ⟨0, 0, 0⟩, ⟨0, 0, 0, 0⟩, 0, 0⟩

/-- An interpolator that has just been extrapolating (anchor recorded) and
now holds two fresh snapshots bracketing the render time. -/
def cx_state : player_interpolator :=
  ⟨[cx_snapA, cx_snapB, cx_snapC], 2, 2, true, false, 0,
    cx_snapA.state, cx_snapA.state, some cx_anchor, none⟩

/-- The same interpolator with the extrapolation/blend sub-state clear. -/
def cx_state_noblend : player_interpolator :=
  ⟨[cx_snapA, cx_snapB, cx_snapC], 2, 2, false, false, 0,
    cx_snapA.state, cx_snapA.state, none, none⟩

end Interp

namespace Interp

/-- Blending at fraction 0 returns the blend-start packet unchanged. -/
theorem blend_packets_zero (a b : player_state_packet) : blend_packets a b 0 = a := by
  cases a with
  | mk guid pos ang vel mt sp =>
    cases pos
    cases ang
    cases vel
    simp [blend_packets, lerp, lerp_angle]

/-- On the first interpolation call after extrapolating (anchor recorded,
two snapshots bracketing the render time, distinct arrival times), the
recovery blend starts at this very call, so the returned state is the blend
of the anchor toward the freshly interpolated state at fraction 0 — that
is, the anchor itself. -/
theorem get_interpolated_state_blend_start (s : player_interpolator) (now : Int)
    (older newer : snapshot) (anchor : player_state_packet)
    (hcount : ¬ s.snapshot_count < 2)
    (hex : s.in_extrapolation = true)
    (hanchor : s.extrapolation_anchor = some anchor)
    (hfind : find_surrounding (now - 100 * 1000000)
        (s.snapshots.take s.snapshot_count) = (some older, some newer))
    (htd : msOf (newer.timestamp - older.timestamp) ≠ 0) :
    (get_interpolated_state s now).1 = some anchor := by
  simp only [get_interpolated_state, if_neg hcount, hfind]
  rw [if_neg htd]
  have hms : msOf 0 = 0 := by decide
  have hclamp : clampQ (((0 : Int) : ℚ) / ((RECOVERY_BLEND_DURATION_MS : Int) : ℚ)) 0 1 = 0 := by
    norm_num [clampQ]
  simp only [apply_blend_if_needed, hex, hanchor, if_true, sub_self, hms, not_true,
    if_false, hclamp, blend_packets_zero]

end Interp

/-- Claim C8 counterexample: with two buffered snapshots at positions x = 0
(older) and x = 1 (newer) bracketing the render time, an interpolator that
is resuming from extrapolation (anchor at x = 100) returns a state whose x
position is 100 — outside [0, 1] — because `get_interpolated_state` starts
a recovery blend from the anchor instead of returning the clamped
interpolation between the bracketing snapshots. -/
theorem interpolation_bounds_counterexample :
    Interp.find_surrounding 900000000
        (Interp.cx_state.snapshots.take Interp.cx_state.snapshot_count) =
      (some Interp.cx_snapA, some Interp.cx_snapB) ∧
    Interp.cx_snapA.state.position.x = 0 ∧
    Interp.cx_snapB.state.position.x = 1 ∧
    ((Interp.get_interpolated_state Interp.cx_state 1000000000).1.map
        (fun r => r.position.x)) = some 100 ∧
    max Interp.cx_snapA.state.position.x Interp.cx_snapB.state.position.x < 100 := by
  refine ⟨by decide, by decide, by decide, ?_, by decide⟩
  rw [Interp.get_interpolated_state_blend_start Interp.cx_state 1000000000
    Interp.cx_snapA Interp.cx_snapB Interp.cx_anchor
    (by decide) rfl rfl (by decide) (by decide)]
  rfl

/-- Witness for C8 (amended) on the same bracketing snapshots with no
pending blend: the returned position x is 1/2, inside [0, 1]. -/
theorem interpolation_bounds_no_blend_witness :
    ∃ r, (Interp.get_interpolated_state Interp.cx_state_noblend 1000000000).1 = some r ∧
      min Interp.cx_snapA.state.position.x Interp.cx_snapB.state.position.x ≤
        r.position.x ∧
      r.position.x ≤
        max Interp.cx_snapA.state.position.x Interp.cx_snapB.state.position.x ∧
      min Interp.cx_snapA.state.position.y Interp.cx_snapB.state.position.y ≤
        r.position.y ∧
      r.position.y ≤
        max Interp.cx_snapA.state.position.y Interp.cx_snapB.state.position.y ∧
      min Interp.cx_snapA.state.position.z Interp.cx_snapB.state.position.z ≤
        r.position.z ∧
      r.position.z ≤
        max Interp.cx_snapA.state.position.z Interp.cx_snapB.state.position.z ∧
      min Interp.cx_snapA.state.position.w Interp.cx_snapB.state.position.w ≤
        r.position.w ∧
      r.position.w ≤
        max Interp.cx_snapA.state.position.w Interp.cx_snapB.state.position.w :=
  interpolation_bounds_no_blend Interp.cx_state_noblend 1000000000
    Interp.cx_snapA Interp.cx_snapB (by decide) rfl rfl (by decide)

namespace QuestSync

/-- Insert-or-replace grows the cache by at most one entry. -/
theorem cacheInsert_length_le (c : List (Nat × quest_fact)) (k : Nat) (v : quest_fact) :
    (cacheInsert c k v).length ≤ c.length + 1 := by
  induction c with
  | nil => simp [cacheInsert]
  | cons p rest ih =>
      obtain ⟨k', v'⟩ := p
      simp only [cacheInsert]
      split_ifs
      · simp
      · simpa using Nat.succ_le_succ ih

/-- Looking up the key just inserted finds the inserted fact. -/
theorem cacheFind_insert_self (c : List (Nat × quest_fact)) (k : Nat) (v : quest_fact) :
    cacheFind (cacheInsert c k v) k = some v := by
  induction c with
  | nil => simp [cacheInsert, cacheFind]
  | cons p rest ih =>
      obtain ⟨k', v'⟩ := p
      simp only [cacheInsert]
      split_ifs with h
      · simp [cacheFind]
      · simp only [cacheFind, if_neg h]
        exact ih

/-- Inserting under one key leaves lookups of any other key unchanged. -/
theorem cacheFind_insert_ne (c : List (Nat × quest_fact)) (k : Nat) (v : quest_fact)
    (k' : Nat) (h : k' ≠ k) :
    cacheFind (cacheInsert c k v) k' = cacheFind c k' := by
  induction c with
  | nil =>
      simp only [cacheInsert, cacheFind]
      rw [if_neg (fun hh => h hh.symm)]
  | cons p rest ih =>
      obtain ⟨k0, v0⟩ := p
      simp only [cacheInsert]
      split_ifs with h0
      · subst h0
        simp only [cacheFind]
        rw [if_neg (fun hh => h hh.symm), if_neg (fun hh => h hh.symm)]
      · simp only [cacheFind]
        split_ifs with h1
        · rfl
        · exact ih

/-- While the cache stays within the size limit, `register_fact` is exactly
the insert-or-replace of the freshly stamped fact (no pruning). -/
theorem register_fact_no_prune (hashf : String → Nat) (now : Nat)
    (m : quest_fact_manager) (fact_name : String) (value : Int) (player_guid : Nat)
    (h : m.fact_cache.length + 1 ≤ FACT_CACHE_SIZE_LIMIT) :
    register_fact hashf now m fact_name value player_guid =
      ⟨cacheInsert m.fact_cache (compute_fact_hash hashf fact_name)
        { fact_name := fact_name, value := value, timestamp := now
          player_guid := player_guid
          fact_hash := compute_fact_hash hashf fact_name }⟩ := by
  simp only [register_fact]
  rw [if_neg]
  have hle := cacheInsert_length_le m.fact_cache (compute_fact_hash hashf fact_name)
    { fact_name := fact_name, value := value, timestamp := now
      player_guid := player_guid, fact_hash := compute_fact_hash hashf fact_name }
  omega

/-- Folding `register_fact` over a list of pending facts does not touch any
hash that none of them maps to (while the size limit is never reached). -/
theorem regFold_find_untouched (hashf : String → Nat) (now2 : Nat)
    (l : List quest_fact) (m : quest_fact_manager) (h : Nat)
    (hlen : m.fact_cache.length + l.length ≤ FACT_CACHE_SIZE_LIMIT)
    (hh : ∀ f ∈ l, compute_fact_hash hashf f.fact_name ≠ h) :
    cacheFind
      (l.foldl (fun m f => register_fact hashf now2 m f.fact_name f.value f.player_guid)
        m).fact_cache h =
    cacheFind m.fact_cache h := by
  induction l generalizing m with
  | nil => rfl
  | cons b rest ih =>
      simp only [List.foldl_cons]
      have hstep := register_fact_no_prune hashf now2 m b.fact_name b.value b.player_guid
        (by simp at hlen; omega)
      rw [hstep]
      have hlen' :
          (cacheInsert m.fact_cache (compute_fact_hash hashf b.fact_name)
            { fact_name := b.fact_name, value := b.value, timestamp := now2
              player_guid := b.player_guid
              fact_hash := compute_fact_hash hashf b.fact_name }).length + rest.length ≤
          FACT_CACHE_SIZE_LIMIT := by
        have := cacheInsert_length_le m.fact_cache (compute_fact_hash hashf b.fact_name)
          { fact_name := b.fact_name, value := b.value, timestamp := now2
            player_guid := b.player_guid
            fact_hash := compute_fact_hash hashf b.fact_name }
        simp at hlen
        omega
      rw [ih _ hlen' (fun f hf => hh f (List.mem_cons_of_mem b hf))]
      exact cacheFind_insert_ne _ _ _ _ (fun he => hh b (List.mem_cons_self b rest) he.symm)

/-- After folding `register_fact` over a list of pending facts with pairwise
distinct hashes (and without reaching the size limit), every fact of the
list is found under its hash, freshly stamped. -/
theorem regFold_get_fact (hashf : String → Nat) (now2 : Nat)
    (l : List quest_fact) (m : quest_fact_manager)
    (hlen : m.fact_cache.length + l.length ≤ FACT_CACHE_SIZE_LIMIT)
    (hdist : l.Pairwise (fun a b =>
      compute_fact_hash hashf a.fact_name ≠ compute_fact_hash hashf b.fact_name)) :
    ∀ f ∈ l,
      get_fact hashf
        (l.foldl (fun m f => register_fact hashf now2 m f.fact_name f.value f.player_guid) m)
        f.fact_name =
      some
        { fact_name := f.fact_name, value := f.value, timestamp := now2
          player_guid := f.player_guid
          fact_hash := compute_fact_hash hashf f.fact_name } := by
  induction l generalizing m with
  | nil => intro f hf; cases hf
  | cons a rest ih =>
      intro f hf
      have hstep := register_fact_no_prune hashf now2 m a.fact_name a.value a.player_guid
        (by simp at hlen; omega)
      have hlen' :
          (cacheInsert m.fact_cache (compute_fact_hash hashf a.fact_name)
            { fact_name := a.fact_name, value := a.value, timestamp := now2
              player_guid := a.player_guid
              fact_hash := compute_fact_hash hashf a.fact_name }).length + rest.length ≤
          FACT_CACHE_SIZE_LIMIT := by
        have := cacheInsert_length_le m.fact_cache (compute_fact_hash hashf a.fact_name)
          { fact_name := a.fact_name, value := a.value, timestamp := now2
            player_guid := a.player_guid
            fact_hash := compute_fact_hash hashf a.fact_name }
        simp at hlen
        omega
      rcases List.mem_cons.mp hf with hfa | hfr
      · subst hfa
        simp only [List.foldl_cons, hstep]
        unfold get_fact
        rw [regFold_find_untouched hashf now2 rest _ _ hlen'
          (fun g hg => ((List.pairwise_cons.mp hdist).1 g hg).symm)]
        exact cacheFind_insert_self _ _ _
      · simp only [List.foldl_cons, hstep]
        exact ih _ hlen' (List.pairwise_cons.mp hdist).2 f hfr

/-- The pending fact `queue_fact_during_sync` builds for a (name, value)
pair: stamped with the enqueue time and the enqueuing player. -/
def mk_pending (hashf : String → Nat) (now player_guid : Nat)
    (nv : String × Int) : quest_fact :=
  { fact_name := nv.1, value := nv.2, timestamp := now
    player_guid := player_guid, fact_hash := compute_fact_hash hashf nv.1 }

/-- A sequence of `W3mAtomicAddFact` calls issued while the same client
(guid) holds the lock window open. -/
def W3mAtomicAddFact_run (hashf : String → Nat) (my_guid now : Nat)
    (fs : List (String × Int)) (s : SyncState) : SyncState :=
  fs.foldl (fun t nv => W3mAtomicAddFact hashf my_guid now nv.1 nv.2 t) s

/-- While the global sync flag is set, a run of atomic adds only appends the
stamped pending facts, in call order, to the queue. -/
theorem atomic_add_run_queues (hashf : String → Nat) (my_guid now : Nat)
    (fs : List (String × Int)) (s : SyncState)
    (hsync : s.sync_in_progress = true) :
    W3mAtomicAddFact_run hashf my_guid now fs s =
      { s with pending_facts := s.pending_facts ++ fs.map (mk_pending hashf now my_guid) } := by
  induction fs generalizing s with
  | nil => simp [W3mAtomicAddFact_run]
  | cons nv rest ih =>
      simp only [W3mAtomicAddFact_run, List.foldl_cons, List.map_cons]
      have hstep : W3mAtomicAddFact hashf my_guid now nv.1 nv.2 s =
          { s with pending_facts := s.pending_facts ++ [mk_pending hashf now my_guid nv] } := by
        simp only [W3mAtomicAddFact, hsync, if_true]
        simp [queue_fact_during_sync, mk_pending, hsync]
      rw [hstep]
      have := ih { s with pending_facts := s.pending_facts ++ [mk_pending hashf now my_guid nv] }
        hsync
      simp only [W3mAtomicAddFact_run] at this
      rw [this]
      simp

/-- `flush_pending_facts` always amounts to registering the whole queue in
order and clearing it (the empty-queue early return is the degenerate
case). -/
theorem flush_pending_facts_eq (hashf : String → Nat) (now : Nat) (s : SyncState) :
    flush_pending_facts hashf now s =
      { s with
        fact_manager :=
          s.pending_facts.foldl
            (fun m f => register_fact hashf now m f.fact_name f.value f.player_guid)
            s.fact_manager
        pending_facts := [] } := by
  obtain ⟨sl, sp, pf, fm, lb, snt⟩ := s
  cases pf with
  | nil => simp [flush_pending_facts]
  | cons a l => simp [flush_pending_facts]

end QuestSync

/-- Claim C1: for every sequence of facts queued through `W3mAtomicAddFact`
while the global sync is in progress: (i) the fact cache is untouched, so no
queued fact becomes visible through `get_fact` before the flush; (ii) the
queue accumulates exactly the queued facts in enqueue (FIFO) order; (iii)
`flush_pending_facts` applies every queued fact exactly once, in that order,
through `register_fact`, and (iv) clears the queue; (v) afterwards every
queued fact is visible through `get_fact` with its queued value (for
hash-distinct names, within the cache capacity). -/
theorem atomic_fact_queue_fifo_flush (hashf : String → Nat)
    (my_guid now now2 : Nat) (s : QuestSync.SyncState)
    (fs : List (String × Int))
    (hsync : s.sync_in_progress = true) :
    (∀ name,
      QuestSync.get_fact hashf
        (QuestSync.W3mAtomicAddFact_run hashf my_guid now fs s).fact_manager name =
      QuestSync.get_fact hashf s.fact_manager name) ∧
    (QuestSync.W3mAtomicAddFact_run hashf my_guid now fs s).pending_facts =
      s.pending_facts ++ fs.map (QuestSync.mk_pending hashf now my_guid) ∧
    (QuestSync.flush_pending_facts hashf now2
        (QuestSync.W3mAtomicAddFact_run hashf my_guid now fs s)).fact_manager =
      (s.pending_facts ++ fs.map (QuestSync.mk_pending hashf now my_guid)).foldl
        (fun m f => QuestSync.register_fact hashf now2 m f.fact_name f.value f.player_guid)
        s.fact_manager ∧
    (QuestSync.flush_pending_facts hashf now2
        (QuestSync.W3mAtomicAddFact_run hashf my_guid now fs s)).pending_facts = [] ∧
    (s.pending_facts = [] →
      fs.Pairwise (fun a b =>
        QuestSync.compute_fact_hash hashf a.1 ≠ QuestSync.compute_fact_hash hashf b.1) →
      s.fact_manager.fact_cache.length + fs.length ≤ QuestSync.FACT_CACHE_SIZE_LIMIT →
      ∀ nv ∈ fs,
        QuestSync.get_fact hashf
          (QuestSync.flush_pending_facts hashf now2
            (QuestSync.W3mAtomicAddFact_run hashf my_guid now fs s)).fact_manager nv.1 =
        some
          { fact_name := nv.1, value := nv.2, timestamp := now2
            player_guid := my_guid
            fact_hash := QuestSync.compute_fact_hash hashf nv.1 }) := by
  have hrun := QuestSync.atomic_add_run_queues hashf my_guid now fs s hsync
  refine ⟨?_, ?_, ?_, ?_, ?_⟩
  · intro name
    rw [hrun]
  · rw [hrun]
  · rw [hrun, QuestSync.flush_pending_facts_eq]
  · rw [hrun, QuestSync.flush_pending_facts_eq]
  · intro hpend hdist hlen nv hmem
    rw [hrun, QuestSync.flush_pending_facts_eq]
    simp only [hpend, List.nil_append]
    have hdist' : (fs.map (QuestSync.mk_pending hashf now my_guid)).Pairwise
        (fun a b => QuestSync.compute_fact_hash hashf a.fact_name ≠
          QuestSync.compute_fact_hash hashf b.fact_name) := by
      rw [List.pairwise_map]
      exact hdist
    have hlen' : s.fact_manager.fact_cache.length +
        (fs.map (QuestSync.mk_pending hashf now my_guid)).length ≤
        QuestSync.FACT_CACHE_SIZE_LIMIT := by
      simpa using hlen
    exact QuestSync.regFold_get_fact hashf now2 _ s.fact_manager hlen' hdist'
      (QuestSync.mk_pending hashf now my_guid nv) (List.mem_map_of_mem _ hmem)

/-- Witness for C1: three facts with hash-distinct names queued from an
empty state during a lock window, then flushed — the queue holds them in
order, nothing is visible before the flush, and all three are visible with
their values afterwards. -/
theorem atomic_fact_queue_fifo_flush_witness :
    (∀ name,
      QuestSync.get_fact String.length
        (QuestSync.W3mAtomicAddFact_run String.length 7 1 [("a", 1), ("bb", 2), ("ccc", 3)]
          ⟨⟨true, 7, 5, 0⟩, true, [], ⟨[]⟩, false, []⟩).fact_manager name =
      QuestSync.get_fact String.length
        (⟨⟨true, 7, 5, 0⟩, true, [], ⟨[]⟩, false, []⟩ : QuestSync.SyncState).fact_manager
        name) ∧
    (QuestSync.W3mAtomicAddFact_run String.length 7 1 [("a", 1), ("bb", 2), ("ccc", 3)]
        ⟨⟨true, 7, 5, 0⟩, true, [], ⟨[]⟩, false, []⟩).pending_facts =
      [⟨"a", 1, 1, 7, 1⟩, ⟨"bb", 2, 1, 7, 2⟩, ⟨"ccc", 3, 1, 7, 3⟩] ∧
    (QuestSync.flush_pending_facts String.length 9
        (QuestSync.W3mAtomicAddFact_run String.length 7 1 [("a", 1), ("bb", 2), ("ccc", 3)]
          ⟨⟨true, 7, 5, 0⟩, true, [], ⟨[]⟩, false, []⟩)).pending_facts = [] ∧
    (QuestSync.get_fact String.length
        (QuestSync.flush_pending_facts String.length 9
          (QuestSync.W3mAtomicAddFact_run String.length 7 1 [("a", 1), ("bb", 2), ("ccc", 3)]
            ⟨⟨true, 7, 5, 0⟩, true, [], ⟨[]⟩, false, []⟩)).fact_manager "bb" =
      some ⟨"bb", 2, 9, 7, 2⟩) := by
  have h := atomic_fact_queue_fifo_flush String.length 7 1 9
    (⟨⟨true, 7, 5, 0⟩, true, [], ⟨[]⟩, false, []⟩ : QuestSync.SyncState)
    [("a", 1), ("bb", 2), ("ccc", 3)] rfl
  refine ⟨h.1, ?_, h.2.2.2.1, ?_⟩
  · rw [h.2.1]
    rfl
  · have hv := h.2.2.2.2 rfl (by decide) (by decide) ("bb", 2) (by simp)
    simpa using hv

namespace QuestSync

/-- Wraparound subtraction agrees with plain subtraction when the minuend is
below 2^64 and not smaller than the subtrahend. -/
theorem sub_u64_eq (a b : Nat) (hb : b ≤ a) (ha : a < 2 ^ 64) :
    sub_u64 a b = a - b := by
  simp only [sub_u64]
  omega

/-- `release_lock` always leaves the lock inactive. -/
theorem release_lock_inactive (st : global_story_lock) :
    (release_lock st).lock_active = false := by
  by_cases h : st.lock_active <;> simp [release_lock, h]

/-- A forced `release_global_story_lock` with loopback disabled: lock
released, sync flag cleared, the whole pending queue registered in order
and cleared, and the unlock packet emitted on the dedicated
"story_lock_release_forced" channel. -/
theorem release_forced_eq (hashf : String → Nat) (now : Nat) (s : SyncState)
    (hloop : s.loopback = false) :
    release_global_story_lock hashf true now s =
      { s with
        story_lock := release_lock s.story_lock
        sync_in_progress := false
        fact_manager :=
          s.pending_facts.foldl
            (fun m f => register_fact hashf now m f.fact_name f.value f.player_guid)
            s.fact_manager
        pending_facts := []
        sent := s.sent ++
          [.lock_msg "story_lock_release_forced"
            { is_locked := false, scene_id := s.story_lock.scene_id
              player_guid := s.story_lock.initiator_guid
              timestamp := now % 2 ^ 32 }] } := by
  simp only [release_global_story_lock, flush_pending_facts_eq]
  rw [if_neg (by simp [hloop])]
  simp

/-- The timeout check is a no-op when the lock is not held. -/
theorem check_noop_not_locked (hashf : String → Nat) (now : Nat) (s : SyncState)
    (h : s.story_lock.lock_active = false) :
    check_story_lock_timeout hashf now s = s := by
  simp [check_story_lock_timeout, h]

/-- The timeout check is a no-op while the lock is younger than the
fail-safe ceiling (strictly less than 15001 ms). -/
theorem check_noop_early (hashf : String → Nat) (now a : Nat) (s : SyncState)
    (hts : s.story_lock.lock_timestamp = a)
    (hlo : a ≤ now) (hhi : now < a + 15001000000) (h64 : now < 2 ^ 64) :
    check_story_lock_timeout hashf now s = s := by
  simp only [check_story_lock_timeout, hts]
  rw [sub_u64_eq now a hlo h64]
  by_cases hact : s.story_lock.lock_active
  · rw [if_neg (by simp [hact]), if_neg (by simp only [STORY_LOCK_TIMEOUT_MS]; omega)]
  · rw [if_pos (by simp [hact])]

/-- Once the elapsed time passes the ceiling, the timeout check
force-releases the lock. -/
theorem check_fires (hashf : String → Nat) (now a : Nat) (s : SyncState)
    (hactive : s.story_lock.lock_active = true)
    (hts : s.story_lock.lock_timestamp = a)
    (hlo : a + 15001000000 ≤ now) (h64 : now < 2 ^ 64) :
    check_story_lock_timeout hashf now s = release_global_story_lock hashf true now s := by
  simp only [check_story_lock_timeout, hts]
  rw [sub_u64_eq now a (by omega) h64]
  rw [if_neg (by simp [hactive]), if_pos (by simp only [STORY_LOCK_TIMEOUT_MS]; omega)]

/-- The periodic fail-safe checks, one per heartbeat tick, in tick order. -/
def check_run (hashf : String → Nat) (times : List Nat) (s : SyncState) : SyncState :=
  times.foldl (fun t u => check_story_lock_timeout hashf u t) s

/-- A run of timeout checks over an unlocked state changes nothing. -/
theorem check_run_noop (hashf : String → Nat) (times : List Nat) (s : SyncState)
    (h : s.story_lock.lock_active = false) :
    check_run hashf times s = s := by
  induction times with
  | nil => rfl
  | cons t rest ih =>
      simp only [check_run, List.foldl_cons]
      rw [check_noop_not_locked hashf t s h]
      exact ih

/-- Core of the fail-safe bound: on any check schedule that starts no later
than the firing deadline, has gaps of at most `H`, and reaches past the
deadline, the run reduces to a single forced release at some check time at
most `H` past the deadline. -/
theorem check_run_failsafe_core (hashf : String → Nat) (H a : Nat)
    (times : List Nat) (s : SyncState)
    (hactive : s.story_lock.lock_active = true)
    (hts : s.story_lock.lock_timestamp = a)
    (hloop : s.loopback = false)
    (hbound : ∀ t ∈ times, a ≤ t ∧ t < 2 ^ 64)
    (hchain : times.Chain' (fun x y => y ≤ x + H))
    (hheadw : ∀ u ∈ times.head?, u ≤ a + 15001000000 + H)
    (hcover : ∃ t ∈ times, a + 15001000000 ≤ t) :
    ∃ t ∈ times, t ≤ a + 15001000000 + H ∧
      check_run hashf times s = release_global_story_lock hashf true t s := by
  induction times with
  | nil => obtain ⟨t, ht, -⟩ := hcover; cases ht
  | cons t rest ih =>
      by_cases hf : a + 15001000000 ≤ t
      · refine ⟨t, List.mem_cons_self t rest, hheadw t rfl, ?_⟩
        simp only [check_run, List.foldl_cons]
        rw [check_fires hashf t a s hactive hts hf (hbound t (List.mem_cons_self t rest)).2]
        have hrel : (release_global_story_lock hashf true t s).story_lock.lock_active
            = false := by
          rw [release_forced_eq hashf t s hloop]
          exact release_lock_inactive s.story_lock
        exact check_run_noop hashf rest _ hrel
      · obtain ⟨hlo, h64⟩ := hbound t (List.mem_cons_self t rest)
        have hstep := check_noop_early hashf t a s hts hlo (by omega) h64
        have hcover' : ∃ u ∈ rest, a + 15001000000 ≤ u := by
          obtain ⟨u, hu, huge⟩ := hcover
          rcases List.mem_cons.mp hu with rfl | hur
          · exact absurd huge hf
          · exact ⟨u, hur, huge⟩
        have hchain' := (List.chain'_cons'.mp hchain).2
        have hheadw' : ∀ u ∈ rest.head?, u ≤ a + 15001000000 + H := by
          intro u hu
          have := (List.chain'_cons'.mp hchain).1 u hu
          omega
        obtain ⟨u, hu, hub, hrun⟩ := ih
          (fun v hv => hbound v (List.mem_cons_of_mem t hv)) hchain' hheadw' hcover'
        refine ⟨u, List.mem_cons_of_mem t hu, hub, ?_⟩
        simp only [check_run, List.foldl_cons, hstep]
        exact hrun

end QuestSync

/-- Claim C3: if the global lock is acquired at time `a` and never
cooperatively released, then along the periodic timeout checks (one per
heartbeat tick, with at most `H` nanoseconds between consecutive ticks, the
first no later than the firing deadline, and continuing past it) the check
that first observes now − acquiredAt past the 15-second ceiling
force-releases the lock, registers and clears the whole pending-fact queue,
and broadcasts the release on the "story_lock_release_forced" channel —
distinct from the cooperative "quest_lock" channel; that check happens at
most one heartbeat interval of slack past the deadline, so the lock is
never held beyond the fail-safe window plus that slack. -/
theorem story_lock_failsafe_forced_release (hashf : String → Nat) (H a : Nat)
    (times : List Nat) (s : QuestSync.SyncState)
    (hactive : s.story_lock.lock_active = true)
    (hts : s.story_lock.lock_timestamp = a)
    (hloop : s.loopback = false)
    (hbound : ∀ t ∈ times, a ≤ t ∧ t < 2 ^ 64)
    (hchain : times.Chain' (fun x y => y ≤ x + H))
    (hhead : ∀ u ∈ times.head?, u ≤ a + 15001000000)
    (hcover : ∃ t ∈ times, a + 15001000000 ≤ t) :
    ∃ t ∈ times, t ≤ a + 15001000000 + H ∧
      QuestSync.check_run hashf times s =
        QuestSync.release_global_story_lock hashf true t s ∧
      (QuestSync.check_run hashf times s).story_lock.lock_active = false ∧
      (QuestSync.check_run hashf times s).pending_facts = [] ∧
      (QuestSync.check_run hashf times s).fact_manager =
        s.pending_facts.foldl
          (fun m f => QuestSync.register_fact hashf t m f.fact_name f.value f.player_guid)
          s.fact_manager ∧
      (QuestSync.check_run hashf times s).sent =
        s.sent ++
          [.lock_msg "story_lock_release_forced"
            { is_locked := false, scene_id := s.story_lock.scene_id
              player_guid := s.story_lock.initiator_guid
              timestamp := t % 2 ^ 32 }] ∧
      "story_lock_release_forced" ≠ "quest_lock" := by
  obtain ⟨t, ht, htb, hrun⟩ := QuestSync.check_run_failsafe_core hashf H a times s
    hactive hts hloop hbound hchain (fun u hu => le_trans (hhead u hu) (Nat.le_add_right _ _))
    hcover
  refine ⟨t, ht, htb, hrun, ?_, ?_, ?_, ?_, by decide⟩
  · rw [hrun, QuestSync.release_forced_eq hashf t s hloop]
    exact QuestSync.release_lock_inactive s.story_lock
  · rw [hrun, QuestSync.release_forced_eq hashf t s hloop]
  · rw [hrun, QuestSync.release_forced_eq hashf t s hloop]
  · rw [hrun, QuestSync.release_forced_eq hashf t s hloop]

/-- Witness for C3: lock acquired at time 0 with one pending fact, heartbeat
checks every 5 seconds (5·10^9 ns); the fourth check (at 20 s) fires within
the 15.001 s deadline plus one 5 s interval, force-releasing and flushing. -/
theorem story_lock_failsafe_forced_release_witness :
    ∃ t ∈ [0, 5000000000, 10000000000, 15000000000, 20000000000],
      t ≤ 0 + 15001000000 + 5000000000 ∧
      QuestSync.check_run String.length
          [0, 5000000000, 10000000000, 15000000000, 20000000000]
          ⟨⟨true, 7, 3, 0⟩, true, [⟨"a", 1, 0, 7, 1⟩], ⟨[]⟩, false, []⟩ =
        QuestSync.release_global_story_lock String.length true t
          ⟨⟨true, 7, 3, 0⟩, true, [⟨"a", 1, 0, 7, 1⟩], ⟨[]⟩, false, []⟩ ∧
      (QuestSync.check_run String.length
          [0, 5000000000, 10000000000, 15000000000, 20000000000]
          ⟨⟨true, 7, 3, 0⟩, true, [⟨"a", 1, 0, 7, 1⟩], ⟨[]⟩, false, []⟩).story_lock.lock_active
        = false ∧
      (QuestSync.check_run String.length
          [0, 5000000000, 10000000000, 15000000000, 20000000000]
          ⟨⟨true, 7, 3, 0⟩, true, [⟨"a", 1, 0, 7, 1⟩], ⟨[]⟩, false, []⟩).pending_facts = [] ∧
      (QuestSync.check_run String.length
          [0, 5000000000, 10000000000, 15000000000, 20000000000]
          ⟨⟨true, 7, 3, 0⟩, true, [⟨"a", 1, 0, 7, 1⟩], ⟨[]⟩, false, []⟩).fact_manager =
        [(⟨"a", 1, 0, 7, 1⟩ : QuestSync.quest_fact)].foldl
          (fun m f => QuestSync.register_fact String.length t m f.fact_name f.value
            f.player_guid)
          ⟨[]⟩ ∧
      (QuestSync.check_run String.length
          [0, 5000000000, 10000000000, 15000000000, 20000000000]
          ⟨⟨true, 7, 3, 0⟩, true, [⟨"a", 1, 0, 7, 1⟩], ⟨[]⟩, false, []⟩).sent =
        [] ++
          [.lock_msg "story_lock_release_forced"
            { is_locked := false, scene_id := 3, player_guid := 7
              timestamp := t % 2 ^ 32 }] ∧
      "story_lock_release_forced" ≠ "quest_lock" :=
  story_lock_failsafe_forced_release String.length 5000000000 0
    [0, 5000000000, 10000000000, 15000000000, 20000000000]
    ⟨⟨true, 7, 3, 0⟩, true, [⟨"a", 1, 0, 7, 1⟩], ⟨[]⟩, false, []⟩
    rfl rfl rfl (by decide) (by norm_num [List.chain'_cons]) (by decide) (by decide)
